import Mathlib

/-!
Verification of the `PinController` hardware pin-control layer
(`src/hal/pin_controller.rs`).

The controller owns five GPIO line groups (`usb_vbus`, `usb_mux`,
`usb_switch`, four one-line `rpi_boot` groups, `rtl_reset`) and exposes
`select_usb`, `set_usb_route`, `set_usb_boot` and `rtl_reset`.

Embedding: each operation is translated into the list of hardware write
events it issues, in program order.  A `run` function applies the events
to an explicit hardware state under a failure oracle (a list of booleans,
one per event position), stopping with an error at the first injected
failure — this mirrors Rust's `?` early return — and stopping with a
panic on an out-of-bounds `rpi_boot` index.  Per the spec's data model, a
line-group write maps bit `i` of the written word to the group's line
`i` in construction order.
-/

namespace PinCtrl

inductive NodeId
  | Node1
  | Node2
  | Node3
  | Node4
deriving DecidableEq, Fintype

inductive UsbMode
  | Host
  | Device
  | Flash
deriving DecidableEq, Fintype

inductive UsbRoute
  | UsbA
  | Bmc
deriving DecidableEq, Fintype

/-- Zero-based index of a node: Node1 drives `rpi_boot[0]`, etc. -/
def NodeId.toIndex : NodeId → Nat
  | .Node1 => 0
  | .Node2 => 1
  | .Node3 => 2
  | .Node4 => 3

/-- Modelled from the spec: `NodeId::to_bitfield` is not under `src/`
(only its callers are).  The spec defines it as the node's "bitfield"
(one bit set, identifying that node among four). -/
def NodeId.to_bitfield (n : NodeId) : Nat := 1 <<< n.toIndex

/-- Modelled from the spec: `NodeId::to_inverse_bitfield` is not under
`src/`.  The spec defines it as the bitwise complement of the node's
single-bit field, masked to 4 bits (complement taken on the u8 value). -/
def NodeId.to_inverse_bitfield (n : NodeId) : Nat :=
  (255 ^^^ n.to_bitfield) &&& 0b1111

/-- ASCII bytes of the payload written for `UsbRoute::UsbA`
(`b"enabled"`). -/
def enabledBytes : List Nat := [101, 110, 97, 98, 108, 101, 100]

/-- ASCII bytes of the payload written for `UsbRoute::Bmc`
(`b"disabled"`). -/
def disabledBytes : List Nat := [100, 105, 115, 97, 98, 108, 101, 100]

/-- Observable hardware state owned by the `PinController`: the words last
written to each line group, the four `rpi_boot` line values, the physical
level of the active-low RTL reset line, and the bytes last written to the
USB port-power file. -/
structure PinState where
  usb_mux : Nat
  usb_vbus : Nat
  usb_switch : Nat
  rpi_boot : List Nat
  rtl_reset_phys : Nat
  port_power : List Nat
deriving DecidableEq

/-- One hardware write (or delay) issued by a controller operation. -/
inductive Event
  | writeMux (v : Nat)
  | writeVbus (v : Nat)
  | writeSwitch (v : Nat)
  | writeRpiBoot (idx : Nat) (v : Nat)
  | writeRtlReset (v : Nat)
  | writeFile (payload : List Nat)
  | sleep (secs : Nat)
deriving DecidableEq

/-- Whether an event can fail with an I/O error (every write can; the
timer sleep cannot). -/
def Event.fallible : Event → Bool
  | .sleep _ => false
  | _ => true

/-- Boolean recogniser for `rpi_boot` line writes. -/
def Event.isRpiBoot : Event → Bool
  | .writeRpiBoot _ _ => true
  | _ => false

/-- Apply one event to the hardware state.  A group write keeps the low
bits that its lines can hold (bit `i` of the word drives line `i` of the
group, in construction order, per the spec's Line Group model).  The RTL
reset line is configured active-low, so writing logical `v` drives the
physical level `1 - v`.  An out-of-bounds `rpi_boot` index is a panic,
modelled as `none`. -/
def applyEvent (s : PinState) : Event → Option PinState
  | .writeMux v => some { s with usb_mux := v &&& 0b1111 }
  | .writeVbus v => some { s with usb_vbus := v &&& 0b1111 }
  | .writeSwitch v => some { s with usb_switch := v &&& 1 }
  | .writeRpiBoot idx v =>
      if idx < s.rpi_boot.length then
        some { s with rpi_boot := s.rpi_boot.set idx (v &&& 1) }
      else
        none
  | .writeRtlReset v => some { s with rtl_reset_phys := 1 - (v &&& 1) }
  | .writeFile p => some { s with port_power := p }
  | .sleep _ => some s

/-- Apply a list of events in order, with no failures (panic gives
`none`). -/
def applyEvents (s : PinState) : List Event → Option PinState
  | [] => some s
  | e :: es =>
      match applyEvent s e with
      | none => none
      | some s2 => applyEvents s2 es

/-- Result of running an operation: success, an I/O error returned to the
caller (with the hardware state at that moment), or a panic. -/
inductive Outcome
  | ok (s : PinState)
  | err (s : PinState)
  | panic (s : PinState)
deriving DecidableEq

/-- The hardware state carried by an outcome. -/
def Outcome.state : Outcome → PinState
  | .ok s => s
  | .err s => s
  | .panic s => s

def Outcome.isOk : Outcome → Bool
  | .ok _ => true
  | _ => false

/-- Run a list of events under a failure oracle: the `k`-th entry of
`fails` says whether the `k`-th event's I/O fails.  A failed fallible
event returns an error immediately (Rust's `?`); nothing after it runs
and nothing before it is rolled back. -/
def run : List Bool → List Event → PinState → Outcome
  | _, [], s => .ok s
  | fs, e :: es, s =>
      if e.fallible && fs.headD false then .err s
      else
        match applyEvent s e with
        | none => .panic s
        | some s2 => run fs.tail es s2

/-- Oracle under which every I/O operation succeeds. -/
def noFail : List Bool := []

/-- Oracle under which exactly the `k`-th event's I/O fails. -/
def failAt (k : Nat) : List Bool := List.replicate k false ++ [true]

/-- Value of line `i` of a group whose last written word is `w` (bit `i`
of the word drives line `i`, per the spec's Line Group model). -/
def lineOfGroup (w i : Nat) : Nat := (w >>> i) &&& 1

/-- The fixed mux lookup table of `select_usb` (board wiring). -/
def muxWord : NodeId → Nat
  | .Node1 => 0b1100
  | .Node2 => 0b1101
  | .Node3 => 0b0011
  | .Node4 => 0b0111

/-- The vbus word of `select_usb`: inverse bitfield for `Host`, all four
lines on for `Device` and `Flash`. -/
def vbusWord (node : NodeId) : UsbMode → Nat
  | .Host => node.to_inverse_bitfield
  | .Device => 0b1111
  | .Flash => 0b1111

/-- Modelled from the spec: helper `bit_iterator` is not under `src/`.
The spec describes it as a pure function over (state, mask) yielding the
ordered (line-index, new-value) pairs: index `n` is yielded exactly when
bit `n` of the mask is set, with new value bit `n` of the state.  The
inputs are u8, so all 8 bit positions are scanned. -/
def bit_iterator (nodes_state nodes_mask : Nat) : List (Nat × Nat) :=
  (List.range 8).filterMap fun n =>
    if nodes_mask &&& (1 <<< n) ≠ 0 then
      some (n, (nodes_state >>> n) &&& 1)
    else
      none

/-- Events issued by `PinController::set_usb_boot`: one `rpi_boot[idx]`
write per pair yielded by `bit_iterator`. -/
def set_usb_boot_events (nodes_state nodes_mask : Nat) : List Event :=
  (bit_iterator nodes_state nodes_mask).map fun p => Event.writeRpiBoot p.1 p.2

/-- Events issued by `PinController::select_usb`, in program order: the
mux word, then the vbus word, then the `set_usb_boot` writes —
state = mask = the node's bitfield when `mode` is `Flash`, else
state `0`, mask `0b1111`. -/
def select_usb_events (node : NodeId) (mode : UsbMode) : List Event :=
  Event.writeMux (muxWord node) ::
    Event.writeVbus (vbusWord node mode) ::
      (if mode = UsbMode.Flash then
        set_usb_boot_events node.to_bitfield node.to_bitfield
      else
        set_usb_boot_events 0 0b1111)

/-- Events issued by `PinController::set_usb_route`: the switch-line
write, then the port-power file write. -/
def set_usb_route_events : UsbRoute → List Event
  | .UsbA => [Event.writeSwitch 0, Event.writeFile enabledBytes]
  | .Bmc => [Event.writeSwitch 1, Event.writeFile disabledBytes]

/-- Events issued by `PinController::rtl_reset`: assert (logical 1),
sleep one second, deassert (logical 0). -/
def rtl_reset_events : List Event :=
  [Event.writeRtlReset 1, Event.sleep 1, Event.writeRtlReset 0]

/-- `select_usb(node, mode)` run with no I/O failures. -/
def select_usb (node : NodeId) (mode : UsbMode) (s : PinState) : Outcome :=
  run noFail (select_usb_events node mode) s

/-- `set_usb_boot(nodes_state, nodes_mask)` run with no I/O failures. -/
def set_usb_boot (nodes_state nodes_mask : Nat) (s : PinState) : Outcome :=
  run noFail (set_usb_boot_events nodes_state nodes_mask) s

/-- `set_usb_route(route)` run with no I/O failures. -/
def set_usb_route (route : UsbRoute) (s : PinState) : Outcome :=
  run noFail (set_usb_route_events route) s

/-- `rtl_reset()` run with no I/O failures. -/
def rtl_reset (s : PinState) : Outcome :=
  run noFail rtl_reset_events s

/-- A concrete starting state used for witnesses and counterexamples. -/
def initState : PinState :=
  { usb_mux := 0, usb_vbus := 0, usb_switch := 0, rpi_boot := [0, 0, 0, 0],
    rtl_reset_phys := 1, port_power := [] }

end PinCtrl

namespace PinCtrl

/-! ## Helper lemmas -/

theorem and_one_one (x : Nat) : x &&& 1 &&& 1 = x &&& 1 := by
  rw [Nat.and_assoc]
  rfl

/-- A list of length four is literally a four-element list. -/
theorem rpiFour {l : List Nat} (h : l.length = 4) : ∃ a b c d, l = [a, b, c, d] := by
  match l, h with
  | [a, b, c, d], _ => exact ⟨a, b, c, d, rfl⟩

/-- Characterisation of the pairs yielded by `bit_iterator`: index `i`
with value `v` appears exactly when `i < 8`, bit `i` of the mask is set,
and `v` is bit `i` of the state. -/
theorem mem_bit_iterator (st mk i v : Nat) :
    (i, v) ∈ bit_iterator st mk ↔
      i < 8 ∧ mk &&& (1 <<< i) ≠ 0 ∧ v = (st >>> i) &&& 1 := by
  simp only [bit_iterator, List.mem_filterMap, List.mem_range]
  constructor
  · rintro ⟨n, hn, hf⟩
    by_cases h : mk &&& (1 <<< n) ≠ 0
    · rw [if_pos h] at hf
      obtain ⟨rfl, rfl⟩ : n = i ∧ (st >>> n) &&& 1 = v := by
        injection hf with h2
        exact ⟨congrArg Prod.fst h2, congrArg Prod.snd h2⟩
      exact ⟨hn, h, rfl⟩
    · rw [if_neg h] at hf
      cases hf
  · rintro ⟨hi, hc, rfl⟩
    exact ⟨i, hi, by rw [if_pos hc]⟩

/-- Characterisation of the `rpi_boot` writes issued by `set_usb_boot`. -/
theorem mem_set_usb_boot_events (st mk i v : Nat) :
    Event.writeRpiBoot i v ∈ set_usb_boot_events st mk ↔
      i < 8 ∧ mk &&& (1 <<< i) ≠ 0 ∧ v = (st >>> i) &&& 1 := by
  rw [← mem_bit_iterator st mk i v]
  simp only [set_usb_boot_events, List.mem_map]
  constructor
  · rintro ⟨⟨i2, v2⟩, hmem, heq⟩
    obtain ⟨rfl, rfl⟩ : i2 = i ∧ v2 = v := by
      injection heq with h1 h2
      exact ⟨h1, h2⟩
    exact hmem
  · intro hmem
    exact ⟨(i, v), hmem, rfl⟩

/-- If bit `i` of a mask below 16 is set, then `i < 4`. -/
theorem lt_four_of_bit_set {mk i : Nat} (hmk : mk < 16) (h : mk &&& (1 <<< i) ≠ 0) :
    i < 4 := by
  by_contra hge
  apply h
  have h1 : (1 : Nat) <<< i = 2 ^ i := by
    rw [Nat.shiftLeft_eq, one_mul]
  have hlt : mk < 2 ^ i := by
    refine lt_of_lt_of_le hmk ?_
    calc (16 : Nat) = 2 ^ 4 := by norm_num
      _ ≤ 2 ^ i := Nat.pow_le_pow_right (by norm_num) (by omega)
  rw [h1, Nat.and_two_pow, Nat.testBit_eq_false_of_lt hlt]
  simp

end PinCtrl

namespace PinCtrl

/-! ## Claim theorems -/

/-- Modelled from the spec claim's words (for comparison only): the value
line `i` of the mux group would take if the 4-bit mux word were
interpreted MSB-first in the lines' construction order, i.e. the MSB
drives the first constructed line. -/
def muxLineMSBFirst (w i : Nat) : Nat := (w >>> (3 - i)) &&& 1

/-- C1 (counterexample): the mux word `0b1100` for Node1 is not applied
MSB-first to the construction order (USB_SEL1, USB_OE1, USB_SEL2,
USB_OE2): the first constructed line USB_SEL1 receives bit 0 of the word
(value 0), while the MSB-first reading would give it the MSB (value 1). -/
theorem C1_counterexample :
    lineOfGroup (select_usb NodeId.Node1 UsbMode.Host initState).state.usb_mux 0 = 0
    ∧ muxLineMSBFirst (muxWord NodeId.Node1) 0 = 1
    ∧ lineOfGroup (select_usb NodeId.Node1 UsbMode.Host initState).state.usb_mux 0 ≠
        muxLineMSBFirst (muxWord NodeId.Node1) 0 := by
  exact ⟨rfl, rfl, by decide⟩

/-- C1 (amended): for every NodeId and UsbMode, `select_usb`'s first
write sets the usb_mux group to exactly the word of the fixed lookup
table Node1 ↦ 1100, Node2 ↦ 1101, Node3 ↦ 0011, Node4 ↦ 0111,
independently of mode; bit `i` of the word drives the `i`-th mux line in
construction order (LSB-first, per the Line Group model); the four mux
words are pairwise distinct. -/
theorem C1_mux_amended (node : NodeId) (mode : UsbMode) (s : PinState)
    (h4 : s.rpi_boot.length = 4) :
    (select_usb_events node mode).head? = some (Event.writeMux (muxWord node))
    ∧ (select_usb node mode s).state.usb_mux = muxWord node
    ∧ (∀ i, i < 4 →
        lineOfGroup (select_usb node mode s).state.usb_mux i = (muxWord node >>> i) &&& 1)
    ∧ muxWord NodeId.Node1 = 0b1100 ∧ muxWord NodeId.Node2 = 0b1101
    ∧ muxWord NodeId.Node3 = 0b0011 ∧ muxWord NodeId.Node4 = 0b0111
    ∧ ∀ n1 n2 : NodeId, muxWord n1 = muxWord n2 → n1 = n2 := by
  obtain ⟨m, v, sw, rpi, rtl, pp⟩ := s
  obtain ⟨a, b, c, d, rfl⟩ := rpiFour (l := rpi) h4
  cases node <;> cases mode <;>
    exact ⟨rfl, rfl, fun i hi => rfl, rfl, rfl, rfl, rfl, by decide⟩

/-- C2: for every NodeId, `select_usb(node, Host)` writes usb_vbus with
the bitwise complement of the node's single-bit field masked to 4 bits,
and `select_usb(node, Device)` and `select_usb(node, Flash)` both write
usb_vbus with 1111. -/
theorem C2_vbus (node : NodeId) (s : PinState) (h4 : s.rpi_boot.length = 4) :
    (select_usb node UsbMode.Host s).state.usb_vbus = (255 ^^^ node.to_bitfield) &&& 0b1111
    ∧ (select_usb node UsbMode.Device s).state.usb_vbus = 0b1111
    ∧ (select_usb node UsbMode.Flash s).state.usb_vbus = 0b1111
    ∧ (255 ^^^ NodeId.Node1.to_bitfield) &&& 0b1111 = 0b1110
    ∧ (255 ^^^ NodeId.Node2.to_bitfield) &&& 0b1111 = 0b1101
    ∧ (255 ^^^ NodeId.Node3.to_bitfield) &&& 0b1111 = 0b1011
    ∧ (255 ^^^ NodeId.Node4.to_bitfield) &&& 0b1111 = 0b0111 := by
  obtain ⟨m, v, sw, rpi, rtl, pp⟩ := s
  obtain ⟨a, b, c, d, rfl⟩ := rpiFour (l := rpi) h4
  cases node <;> exact ⟨rfl, rfl, rfl, rfl, rfl, rfl, rfl⟩

/-- C3: for every (state, mask) pair with a 4-bit mask, `set_usb_boot`
issues a write to the rpiboot line at index `i` iff bit `i` of the mask
is 1, the written value is bit `i` of the state, and a line whose mask
bit is 0 keeps its previous value. -/
theorem C3_set_usb_boot (st mk : Nat) (s : PinState) (hmk : mk < 16)
    (h4 : s.rpi_boot.length = 4) :
    (∀ i v : Nat, Event.writeRpiBoot i v ∈ set_usb_boot_events st mk ↔
      mk &&& (1 <<< i) ≠ 0 ∧ v = (st >>> i) &&& 1)
    ∧ ∃ s2, set_usb_boot st mk s = Outcome.ok s2 ∧
        ∀ i, i < 4 →
          s2.rpi_boot.getD i 0 =
            if mk &&& (1 <<< i) ≠ 0 then (st >>> i) &&& 1 else s.rpi_boot.getD i 0 := by
  constructor
  · intro i v
    rw [mem_set_usb_boot_events]
    constructor
    · rintro ⟨hi, hbit, hv⟩
      exact ⟨hbit, hv⟩
    · rintro ⟨hbit, hv⟩
      have hi4 : i < 4 := lt_four_of_bit_set hmk hbit
      exact ⟨by omega, hbit, hv⟩
  · obtain ⟨m, v, sw, rpi, rtl, pp⟩ := s
    obtain ⟨a, b, c, d, rfl⟩ := rpiFour (l := rpi) h4
    interval_cases mk <;>
      (refine ⟨_, rfl, ?_⟩
       intro i hi
       interval_cases i <;>
         first
           | (rw [if_pos (by decide)]; simp [and_one_one])
           | (rw [if_neg (by decide)]; simp)
           | (rw [if_neg (by decide)]))

end PinCtrl

namespace PinCtrl

/-- C4: `select_usb(node, Flash)` invokes the rpiboot update with
state = mask = the node's single-bit field, which issues exactly one
write — the node's own line set to 1 — leaving the other three lines
untouched; `select_usb(node, Host)` and `select_usb(node, Device)`
invoke it with state 0 and mask 1111, clearing all four lines. -/
theorem C4_rpiboot (node : NodeId) (mode : UsbMode) (s : PinState)
    (h4 : s.rpi_boot.length = 4) :
    select_usb_events node UsbMode.Flash =
      Event.writeMux (muxWord node) :: Event.writeVbus 0b1111 ::
        set_usb_boot_events node.to_bitfield node.to_bitfield
    ∧ set_usb_boot_events node.to_bitfield node.to_bitfield =
        [Event.writeRpiBoot node.toIndex 1]
    ∧ (select_usb node UsbMode.Flash s).state.rpi_boot = s.rpi_boot.set node.toIndex 1
    ∧ (mode ≠ UsbMode.Flash →
        select_usb_events node mode =
          Event.writeMux (muxWord node) :: Event.writeVbus (vbusWord node mode) ::
            set_usb_boot_events 0 0b1111)
    ∧ set_usb_boot_events 0 0b1111 =
        [Event.writeRpiBoot 0 0, Event.writeRpiBoot 1 0,
          Event.writeRpiBoot 2 0, Event.writeRpiBoot 3 0]
    ∧ (mode ≠ UsbMode.Flash → (select_usb node mode s).state.rpi_boot = [0, 0, 0, 0]) := by
  obtain ⟨m, v, sw, rpi, rtl, pp⟩ := s
  obtain ⟨a, b, c, d, rfl⟩ := rpiFour (l := rpi) h4
  cases node <;> cases mode <;>
    first
      | exact ⟨rfl, rfl, rfl, fun h => absurd rfl h, rfl, fun h => absurd rfl h⟩
      | exact ⟨rfl, rfl, rfl, fun h => rfl, rfl, fun h => rfl⟩

/-- A second concrete starting state, differing from `initState` only in
the `rpi_boot` line of node 2. -/
def altState : PinState := { initState with rpi_boot := [0, 1, 0, 0] }

/-- C5 (counterexample): `select_usb(Node1, Flash)` does not produce the
same final line states regardless of the starting hardware state — from
two starting states that differ in node 2's rpiboot line, both calls
succeed but the final rpiboot line states differ (the Flash path writes
only the selected node's line). -/
theorem C5_counterexample :
    (select_usb NodeId.Node1 UsbMode.Flash initState).isOk = true
    ∧ (select_usb NodeId.Node1 UsbMode.Flash altState).isOk = true
    ∧ (select_usb NodeId.Node1 UsbMode.Flash initState).state.rpi_boot ≠
        (select_usb NodeId.Node1 UsbMode.Flash altState).state.rpi_boot := by
  exact ⟨rfl, rfl, by decide⟩

/-- C5 (amended): calling `select_usb(node, mode)` twice in a row with
identical arguments produces identical final line states (the second
call returns exactly the state produced by the first); for Host and
Device the final mux, vbus and rpiboot states are moreover independent
of the starting state, while for Flash the three untouched rpiboot
lines retain their starting values (only the selected node's line is
forced to 1). -/
theorem C5_idempotent (node : NodeId) (mode : UsbMode) (s s2 : PinState)
    (h4 : s.rpi_boot.length = 4) (h42 : s2.rpi_boot.length = 4) :
    (∃ s1, select_usb node mode s = Outcome.ok s1 ∧ select_usb node mode s1 = Outcome.ok s1)
    ∧ (mode ≠ UsbMode.Flash →
        (select_usb node mode s).state.usb_mux = (select_usb node mode s2).state.usb_mux
        ∧ (select_usb node mode s).state.usb_vbus = (select_usb node mode s2).state.usb_vbus
        ∧ (select_usb node mode s).state.rpi_boot = (select_usb node mode s2).state.rpi_boot)
    ∧ (select_usb node UsbMode.Flash s).state.rpi_boot = s.rpi_boot.set node.toIndex 1 := by
  obtain ⟨m, v, sw, rpi, rtl, pp⟩ := s
  obtain ⟨a, b, c, d, rfl⟩ := rpiFour (l := rpi) h4
  obtain ⟨m2, v2, sw2, rpi2, rtl2, pp2⟩ := s2
  obtain ⟨a2, b2, c2, d2, rfl⟩ := rpiFour (l := rpi2) h42
  cases node <;> cases mode <;>
    first
      | exact ⟨⟨_, rfl, rfl⟩, fun h => absurd rfl h, rfl⟩
      | exact ⟨⟨_, rfl, rfl⟩, fun h => ⟨rfl, rfl, rfl⟩, rfl⟩

/-- C6: `set_usb_route(UsbA)` sets the usb_switch line to 0 and then
writes the byte-exact ASCII payload "enabled" to the USB port-power
file; `set_usb_route(Bmc)` sets the line to 1 and then writes
"disabled"; in both traces the switch-line write precedes the file
write. -/
theorem C6_usb_route (s : PinState) :
    set_usb_route_events UsbRoute.UsbA = [Event.writeSwitch 0, Event.writeFile enabledBytes]
    ∧ set_usb_route_events UsbRoute.Bmc = [Event.writeSwitch 1, Event.writeFile disabledBytes]
    ∧ enabledBytes = [101, 110, 97, 98, 108, 101, 100]
    ∧ disabledBytes = [100, 105, 115, 97, 98, 108, 101, 100]
    ∧ set_usb_route UsbRoute.UsbA s =
        Outcome.ok { s with usb_switch := 0, port_power := enabledBytes }
    ∧ set_usb_route UsbRoute.Bmc s =
        Outcome.ok { s with usb_switch := 1, port_power := disabledBytes } := by
  exact ⟨rfl, rfl, rfl, rfl, rfl, rfl⟩

/-- C7: `set_usb_route` is not atomic across the line/file boundary:
for either route, if the switch-line write succeeds and the file write
fails, the call returns an error while the switch line keeps its newly
written value and the file is unchanged; if the line write fails, the
error is returned immediately and neither the line nor the file is
changed. -/
theorem C7_route_not_atomic (s : PinState) :
    run (failAt 1) (set_usb_route_events UsbRoute.UsbA) s =
      Outcome.err { s with usb_switch := 0 }
    ∧ run (failAt 1) (set_usb_route_events UsbRoute.Bmc) s =
        Outcome.err { s with usb_switch := 1 }
    ∧ run (failAt 0) (set_usb_route_events UsbRoute.UsbA) s = Outcome.err s
    ∧ run (failAt 0) (set_usb_route_events UsbRoute.Bmc) s = Outcome.err s := by
  exact ⟨rfl, rfl, rfl, rfl⟩

end PinCtrl

namespace PinCtrl

/-- C8: `select_usb` issues its writes in the fixed order mux, then
vbus, then the rpiboot writes; if the `k`-th write fails, the call
returns an I/O error, the writes before position `k` are applied and
not rolled back, and no write after position `k` is issued — the final
state is exactly the pure application of the first `k` events. -/
theorem C8_order_failure (node : NodeId) (mode : UsbMode) (s : PinState) (k : Nat)
    (h4 : s.rpi_boot.length = 4) (hk : k < (select_usb_events node mode).length) :
    (∃ bs, select_usb_events node mode =
        Event.writeMux (muxWord node) :: Event.writeVbus (vbusWord node mode) :: bs
      ∧ ∀ e ∈ bs, e.isRpiBoot = true)
    ∧ ∃ sk, applyEvents s ((select_usb_events node mode).take k) = some sk
        ∧ run (failAt k) (select_usb_events node mode) s = Outcome.err sk := by
  obtain ⟨m, v, sw, rpi, rtl, pp⟩ := s
  obtain ⟨a, b, c, d, rfl⟩ := rpiFour (l := rpi) h4
  refine ⟨?_, ?_⟩
  · cases node <;> cases mode <;> exact ⟨_, rfl, by decide⟩
  · cases node <;> cases mode <;>
      (first
        | (have hk2 : k < 3 := hk
           interval_cases k <;> exact ⟨_, rfl, rfl⟩)
        | (have hk2 : k < 6 := hk
           interval_cases k <;> exact ⟨_, rfl, rfl⟩))

/-- C9: `rtl_reset` first writes logical 1, which on the active-low
line pulls the physical level low (assert), then sleeps for one second,
then writes logical 0, restoring the physical level high (deassert);
the events appear in exactly that order, and if the assert-write fails
the call returns an error with the state untouched — neither the delay
nor the deassert-write occurs. -/
theorem C9_rtl_reset (s : PinState) :
    rtl_reset_events = [Event.writeRtlReset 1, Event.sleep 1, Event.writeRtlReset 0]
    ∧ applyEvent s (Event.writeRtlReset 1) = some { s with rtl_reset_phys := 0 }
    ∧ applyEvent s (Event.writeRtlReset 0) = some { s with rtl_reset_phys := 1 }
    ∧ rtl_reset s = Outcome.ok { s with rtl_reset_phys := 1 }
    ∧ run (failAt 0) rtl_reset_events s = Outcome.err s := by
  exact ⟨rfl, rfl, rfl, rfl, rfl⟩

/-- C10: `set_usb_boot` indexes the 4-element rpi_boot array with the
indices yielded by `bit_iterator`; every mask confined to the low 4
bits stays in bounds and succeeds, while a mask with bit 4 set (legal
for a u8 argument) yields index 4 and panics out of bounds instead of
returning an error; both call sites inside `select_usb` pass masks
contained in 0b1111, so `select_usb` itself always succeeds. -/
theorem C10_bounds (s : PinState) (h4 : s.rpi_boot.length = 4) :
    set_usb_boot_events 0b10000 0b10000 = [Event.writeRpiBoot 4 1]
    ∧ set_usb_boot 0b10000 0b10000 s = Outcome.panic s
    ∧ (∀ st mk : Nat, mk < 16 → (set_usb_boot st mk s).isOk = true)
    ∧ (∀ node : NodeId, node.to_bitfield &&& 0b1111 = node.to_bitfield
        ∧ node.to_bitfield < 16)
    ∧ (∀ node mode, (select_usb node mode s).isOk = true) := by
  obtain ⟨m, v, sw, rpi, rtl, pp⟩ := s
  obtain ⟨a, b, c, d, rfl⟩ := rpiFour (l := rpi) h4
  refine ⟨by decide, rfl, ?_, by decide, ?_⟩
  · intro st mk hmk
    interval_cases mk <;> rfl
  · intro node mode
    cases node <;> cases mode <;> rfl

end PinCtrl

namespace PinCtrl

/-! ## Witnesses: the hypothesised theorems applied at concrete inputs -/

/-- Witness for the amended C1 at Node3, Device, `initState`. -/
theorem C1_mux_amended_witness :
    initState.rpi_boot.length = 4
    ∧ ((select_usb_events NodeId.Node3 UsbMode.Device).head? =
          some (Event.writeMux (muxWord NodeId.Node3))
      ∧ (select_usb NodeId.Node3 UsbMode.Device initState).state.usb_mux = muxWord NodeId.Node3
      ∧ (∀ i, i < 4 →
          lineOfGroup (select_usb NodeId.Node3 UsbMode.Device initState).state.usb_mux i =
            (muxWord NodeId.Node3 >>> i) &&& 1)
      ∧ muxWord NodeId.Node1 = 0b1100 ∧ muxWord NodeId.Node2 = 0b1101
      ∧ muxWord NodeId.Node3 = 0b0011 ∧ muxWord NodeId.Node4 = 0b0111
      ∧ ∀ n1 n2 : NodeId, muxWord n1 = muxWord n2 → n1 = n2) :=
  ⟨by decide, C1_mux_amended NodeId.Node3 UsbMode.Device initState (by decide)⟩

/-- Witness for C2 at Node2, `initState`. -/
theorem C2_vbus_witness :
    initState.rpi_boot.length = 4
    ∧ ((select_usb NodeId.Node2 UsbMode.Host initState).state.usb_vbus =
          (255 ^^^ NodeId.Node2.to_bitfield) &&& 0b1111
      ∧ (select_usb NodeId.Node2 UsbMode.Device initState).state.usb_vbus = 0b1111
      ∧ (select_usb NodeId.Node2 UsbMode.Flash initState).state.usb_vbus = 0b1111
      ∧ (255 ^^^ NodeId.Node1.to_bitfield) &&& 0b1111 = 0b1110
      ∧ (255 ^^^ NodeId.Node2.to_bitfield) &&& 0b1111 = 0b1101
      ∧ (255 ^^^ NodeId.Node3.to_bitfield) &&& 0b1111 = 0b1011
      ∧ (255 ^^^ NodeId.Node4.to_bitfield) &&& 0b1111 = 0b0111) :=
  ⟨by decide, C2_vbus NodeId.Node2 initState (by decide)⟩

/-- Witness for C3 at state 0b1010, mask 0b0110, `initState`. -/
theorem C3_set_usb_boot_witness :
    0b0110 < 16
    ∧ initState.rpi_boot.length = 4
    ∧ ((∀ i v : Nat, Event.writeRpiBoot i v ∈ set_usb_boot_events 0b1010 0b0110 ↔
          0b0110 &&& (1 <<< i) ≠ 0 ∧ v = (0b1010 >>> i) &&& 1)
      ∧ ∃ s2, set_usb_boot 0b1010 0b0110 initState = Outcome.ok s2 ∧
          ∀ i, i < 4 →
            s2.rpi_boot.getD i 0 =
              if 0b0110 &&& (1 <<< i) ≠ 0 then (0b1010 >>> i) &&& 1
              else initState.rpi_boot.getD i 0) :=
  ⟨by decide, by decide, C3_set_usb_boot 0b1010 0b0110 initState (by decide) (by decide)⟩

/-- Witness for C4 at Node2, Host, `initState`. -/
theorem C4_rpiboot_witness :
    initState.rpi_boot.length = 4
    ∧ (select_usb_events NodeId.Node2 UsbMode.Flash =
        Event.writeMux (muxWord NodeId.Node2) :: Event.writeVbus 0b1111 ::
          set_usb_boot_events NodeId.Node2.to_bitfield NodeId.Node2.to_bitfield
      ∧ set_usb_boot_events NodeId.Node2.to_bitfield NodeId.Node2.to_bitfield =
          [Event.writeRpiBoot NodeId.Node2.toIndex 1]
      ∧ (select_usb NodeId.Node2 UsbMode.Flash initState).state.rpi_boot =
          initState.rpi_boot.set NodeId.Node2.toIndex 1
      ∧ (UsbMode.Host ≠ UsbMode.Flash →
          select_usb_events NodeId.Node2 UsbMode.Host =
            Event.writeMux (muxWord NodeId.Node2) ::
              Event.writeVbus (vbusWord NodeId.Node2 UsbMode.Host) ::
                set_usb_boot_events 0 0b1111)
      ∧ set_usb_boot_events 0 0b1111 =
          [Event.writeRpiBoot 0 0, Event.writeRpiBoot 1 0,
            Event.writeRpiBoot 2 0, Event.writeRpiBoot 3 0]
      ∧ (UsbMode.Host ≠ UsbMode.Flash →
          (select_usb NodeId.Node2 UsbMode.Host initState).state.rpi_boot = [0, 0, 0, 0])) :=
  ⟨by decide, C4_rpiboot NodeId.Node2 UsbMode.Host initState (by decide)⟩

/-- Witness for the amended C5 at Node3, Device, starting states
`initState` and `altState`. -/
theorem C5_idempotent_witness :
    initState.rpi_boot.length = 4
    ∧ altState.rpi_boot.length = 4
    ∧ ((∃ s1, select_usb NodeId.Node3 UsbMode.Device initState = Outcome.ok s1
          ∧ select_usb NodeId.Node3 UsbMode.Device s1 = Outcome.ok s1)
      ∧ (UsbMode.Device ≠ UsbMode.Flash →
          (select_usb NodeId.Node3 UsbMode.Device initState).state.usb_mux =
            (select_usb NodeId.Node3 UsbMode.Device altState).state.usb_mux
          ∧ (select_usb NodeId.Node3 UsbMode.Device initState).state.usb_vbus =
              (select_usb NodeId.Node3 UsbMode.Device altState).state.usb_vbus
          ∧ (select_usb NodeId.Node3 UsbMode.Device initState).state.rpi_boot =
              (select_usb NodeId.Node3 UsbMode.Device altState).state.rpi_boot)
      ∧ (select_usb NodeId.Node3 UsbMode.Flash initState).state.rpi_boot =
          initState.rpi_boot.set NodeId.Node3.toIndex 1) :=
  ⟨by decide, by decide,
    C5_idempotent NodeId.Node3 UsbMode.Device initState altState (by decide) (by decide)⟩

/-- Witness for C8 at Node1, Host, `initState`, failing write position 1
(the vbus write). -/
theorem C8_order_failure_witness :
    initState.rpi_boot.length = 4
    ∧ 1 < (select_usb_events NodeId.Node1 UsbMode.Host).length
    ∧ ((∃ bs, select_usb_events NodeId.Node1 UsbMode.Host =
          Event.writeMux (muxWord NodeId.Node1) ::
            Event.writeVbus (vbusWord NodeId.Node1 UsbMode.Host) :: bs
        ∧ ∀ e ∈ bs, e.isRpiBoot = true)
      ∧ ∃ sk, applyEvents initState ((select_usb_events NodeId.Node1 UsbMode.Host).take 1) =
            some sk
          ∧ run (failAt 1) (select_usb_events NodeId.Node1 UsbMode.Host) initState =
              Outcome.err sk) :=
  ⟨by decide, by decide,
    C8_order_failure NodeId.Node1 UsbMode.Host initState 1 (by decide) (by decide)⟩

/-- Witness for C10 at `initState`. -/
theorem C10_bounds_witness :
    initState.rpi_boot.length = 4
    ∧ (set_usb_boot_events 0b10000 0b10000 = [Event.writeRpiBoot 4 1]
      ∧ set_usb_boot 0b10000 0b10000 initState = Outcome.panic initState
      ∧ (∀ st mk : Nat, mk < 16 → (set_usb_boot st mk initState).isOk = true)
      ∧ (∀ node : NodeId, node.to_bitfield &&& 0b1111 = node.to_bitfield
          ∧ node.to_bitfield < 16)
      ∧ (∀ node mode, (select_usb node mode initState).isOk = true)) :=
  ⟨by decide, C10_bounds initState (by decide)⟩

end PinCtrl
